import Mathlib

/-!
Verification development for the kubor-demo1 demonstration HTTP service.

The repository ships two variants of the same program: an early simple
variant (health endpoint, hello-world root, 404 otherwise) and an extended
variant (health endpoint plus a catch-all diagnostic JSON route).  Both
share the same lifecycle in `main`: register a signal handler, start the
HTTP server in the background, wait to become ready (setting a shared
readiness flag), then either block forever or sleep for `exitAfter` and
exit with the configured exit code.

Modelling conventions:
- Go `time.Duration` values are signed 64-bit nanosecond counts; they are
  modelled as `Int`.  `time.Sleep` returns immediately for a non-positive
  duration, so the time elapsed by a sleep of `d` is `max d 0`.
- The lifecycle (main goroutine) together with the signal-handler
  goroutine is modelled as a small-step transition system; the signal
  step may fire in any non-exited state, mirroring `os.Exit(0)` in the
  goroutine registered by `registerGracefulShutdown`.
- The HTTP handlers are pure state transformers over a `ResponseWriter`
  model that follows net/http semantics: the first `WriteHeader` (or the
  implicit one performed by the first `Write`) snapshots the status code
  and the current header map; header-map changes made afterwards are not
  transmitted.
-/

namespace KuborDemo

/-- Process configuration: the `-readyAfter`, `-exitAfter` and `-exitCode`
flag values (durations in Go are signed). -/
structure Config where
  readyAfter : Int
  exitAfter : Int
  exitCode : Int
deriving DecidableEq

/-- Time elapsed by `time.Sleep d`: a negative or zero duration causes
`Sleep` to return immediately. -/
def sleepFor (d : Int) : Int := max d 0

/-- Control position of the main goroutine: inside `waitToBeReady`,
inside `justRun` before branching, parked in `blockForEver`, returned
from `justRun` (about to call `os.Exit(*exitCode)`), or exited. -/
inductive Phase where
  | waiting
  | running
  | blockedForEver
  | done
  | exited (code : Int)
deriving DecidableEq

/-- Process state: control phase, the shared readiness flag (the
`atomic.Value` named `ready`), the number of times the flag has been
written since `init` stored `false`, and elapsed time. -/
structure PState where
  phase : Phase
  ready : Bool
  writes : Nat
  clock : Int
deriving DecidableEq

/-- Initial state: `init` stores `false` into the readiness flag before
`main` runs. -/
abbrev initState : PState := ⟨Phase.waiting, false, 0, 0⟩

/-- Lifecycle steps of the main goroutine, read off `waitToBeReady`,
`justRun`, `blockForEver` and the tail of `main`.  `becomeReady` is
`waitToBeReady` finishing: it sleeps (for `readyAfter` in the simple
variant, or only when `readyAfter > 0` in the extended variant; the
elapsed time `sleepFor readyAfter` is the same in both) and then performs
the single `ready.Store(true)`.  `runForEver` is `justRun` taking the
`*exitAfter == 0` branch into `blockForEver`, which never returns.
`runTimed` is the other branch sleeping `exitAfter` and returning, after
which `main` calls `os.Exit(*exitCode)` (`selfExit`). -/
inductive LStep (cfg : Config) : PState → PState → Prop where
  | becomeReady (f : Bool) (w : Nat) (t : Int) :
      LStep cfg ⟨Phase.waiting, f, w, t⟩
        ⟨Phase.running, true, w + 1, t + sleepFor cfg.readyAfter⟩
  | runForEver (f : Bool) (w : Nat) (t : Int) (h : cfg.exitAfter = 0) :
      LStep cfg ⟨Phase.running, f, w, t⟩ ⟨Phase.blockedForEver, f, w, t⟩
  | runTimed (f : Bool) (w : Nat) (t : Int) (h : cfg.exitAfter ≠ 0) :
      LStep cfg ⟨Phase.running, f, w, t⟩
        ⟨Phase.done, f, w, t + sleepFor cfg.exitAfter⟩
  | selfExit (f : Bool) (w : Nat) (t : Int) :
      LStep cfg ⟨Phase.done, f, w, t⟩ ⟨Phase.exited cfg.exitCode, f, w, t⟩

/-- Whether the process has exited. -/
def isExited : Phase → Bool
  | Phase.exited _ => true
  | _ => false

/-- Effect of the signal-handler goroutine receiving SIGINT or SIGTERM:
it logs and calls `os.Exit(0)`, regardless of the configured exit code. -/
def onSignal (s : PState) : PState := ⟨Phase.exited 0, s.ready, s.writes, s.clock⟩

/-- Full system step: either the main goroutine makes a lifecycle step,
or a termination signal is delivered to the running process. -/
inductive Step (cfg : Config) : PState → PState → Prop where
  | lifecycle {s t : PState} : LStep cfg s t → Step cfg s t
  | signal (s : PState) (h : isExited s.phase = false) : Step cfg s (onSignal s)

/-- Reachable states of the full system (signals allowed at any point). -/
def Reaches (cfg : Config) (s : PState) : Prop :=
  Relation.ReflTransGen (Step cfg) initState s

/-- Reachable states of signal-free executions (normal operation). -/
def ReachesNoSig (cfg : Config) (s : PState) : Prop :=
  Relation.ReflTransGen (LStep cfg) initState s

/-- Observable actions of a `waitToBeReady` run, for comparing the two
variants: suspending for a duration, and storing a value into the
readiness flag. -/
inductive Action where
  | sleep (d : Int)
  | store (v : Bool)
deriving DecidableEq

/-! HTTP boundary model. -/

/-- HTTP request as the handlers see it.  `query` is the decoded query
string as an ordered list of key/value pairs (`url.Values.Get` returns
the first value for a key).  `form` and `postForm` model `Request.Form`
and `Request.PostForm`, which net/http leaves nil (here `[]`) until
`ParseForm` is called. -/
structure Request where
  method : String
  path : String
  query : List (String × String)
  proto : String
  host : String
  requestURI : String
  header : List (String × List String)
  form : List (String × List String)
  postForm : List (String × List String)
deriving DecidableEq

/-- First query value for a key, or the empty string
(`req.URL.Query().Get(k)`). -/
def queryGet (q : List (String × String)) (k : String) : String :=
  match q.find? (fun p => p.1 == k) with
  | some p => p.2
  | none => ""

/-- Response writer: the live header map (mutable until the response is
committed), the committed snapshot of headers and status code (if any),
and the accumulated body. -/
structure ResponseWriter where
  liveHeader : List (String × String)
  sent : Option (List (String × String) × Nat)
  body : String
deriving DecidableEq

/-- Fresh response writer handed to a handler. -/
abbrev rw0 : ResponseWriter := ⟨[], none, ""⟩

/-- Set a key in a single-valued association list (`Header.Set`). -/
def setKV (m : List (String × String)) (k v : String) : List (String × String) :=
  if m.any (fun p => p.1 == k) then m.map (fun p => if p.1 == k then (k, v) else p)
  else m ++ [(k, v)]

/-- Look up a key in a single-valued association list. -/
def lookupKV (m : List (String × String)) (k : String) : Option String :=
  (m.find? (fun p => p.1 == k)).map (fun p => p.2)

/-- Model of `resp.Header().Set(k, v)`: mutates the live header map. -/
def headerSet (resp : ResponseWriter) (k v : String) : ResponseWriter :=
  ⟨setKV resp.liveHeader k v, resp.sent, resp.body⟩

/-- Model of `resp.WriteHeader(code)`: the first call snapshots the
current header map together with the status code; net/http ignores later
calls and does not transmit later header-map changes. -/
def writeHeader (resp : ResponseWriter) (code : Nat) : ResponseWriter :=
  match resp.sent with
  | some _ => resp
  | none => ⟨resp.liveHeader, some (resp.liveHeader, code), resp.body⟩

/-- Model of `resp.Write`: commits an implicit 200 header if none was
written yet, then appends to the body. -/
def write (resp : ResponseWriter) (s : String) : ResponseWriter :=
  let c := writeHeader resp 200
  ⟨c.liveHeader, c.sent, c.body ++ s⟩

/-- Status code of the committed response (200 if the handler never
wrote anything). -/
def sentStatus (resp : ResponseWriter) : Nat :=
  match resp.sent with
  | some p => p.2
  | none => 200

/-- Headers of the committed response. -/
def sentHeaders (resp : ResponseWriter) : List (String × String) :=
  match resp.sent with
  | some p => p.1
  | none => resp.liveHeader

/-- The `http.StatusText` values used by the program. -/
def statusText (code : Nat) : String :=
  if code == 200 then "OK"
  else if code == 404 then "Not Found"
  else if code == 405 then "Method Not Allowed"
  else if code == 503 then "Service Unavailable"
  else ""

/-- Model of `http.Error(w, err, code)`: sets a plain-text content type
and `X-Content-Type-Options`, writes the status, then prints the message
followed by a newline. -/
def httpError (resp : ResponseWriter) (err : String) (code : Nat) : ResponseWriter :=
  let r1 := headerSet resp ("Content-Type") ("text/plain; charset=utf-8")
  let r2 := headerSet r1 ("X-Content-Type-Options") ("nosniff")
  write (writeHeader r2 code) (err ++ "\n")

/-- Model of `http.NotFound`. -/
def notFound (resp : ResponseWriter) : ResponseWriter :=
  httpError resp ("404 page not found") 404

/-- Decimal digit accumulation for `strconv.Atoi`: fails on any
non-digit character. -/
def atoiDigits : List Char → Nat → Option Nat
  | [], acc => some acc
  | c :: rest, acc =>
    if ('0' ≤ c ∧ c ≤ '9') then atoiDigits rest (acc * 10 + (c.toNat - 48)) else none

/-- Model of `strconv.Atoi` on a 64-bit platform: optional single sign,
then one or more decimal digits spanning the whole string; the empty
string, a lone sign, any other character, and 64-bit signed overflow are
errors (`none`). -/
def atoi (s : String) : Option Int :=
  let core : Bool × List Char :=
    match s.data with
    | '-' :: rest => (true, rest)
    | '+' :: rest => (false, rest)
    | l => (false, l)
  match core with
  | (_, []) => none
  | (neg, ds) =>
    match atoiDigits ds 0 with
    | none => none
    | some n =>
      if neg then
        if n ≤ 9223372036854775808 then some (-(n : Int)) else none
      else
        if n ≤ 9223372036854775807 then some ((n : Int)) else none

namespace Simple

/-- Trace of the simple variant's `waitToBeReady`: it always sleeps for
`readyAfter` (even when the duration is not positive) and then stores
`true` into the readiness flag. -/
def waitToBeReady (readyAfter : Int) : List Action :=
  [Action.sleep readyAfter, Action.store true]

/-- Health endpoint of the simple variant: writes the status matching the
readiness flag, then (too late: after `WriteHeader`) sets the
`Content-Type` header, then writes the body. -/
def handleHealth (ready : Bool) (resp : ResponseWriter) : ResponseWriter :=
  let resp1 := if ready then writeHeader resp 200 else writeHeader resp 503
  let v := if ready then "OK" else "NOT_READY"
  let resp2 := headerSet resp1 ("Content-Type") ("text/plain")
  write resp2 v

/-- Root endpoint of the simple variant. -/
def handleRoot (resp : ResponseWriter) : ResponseWriter :=
  write (headerSet resp ("Content-Type") ("text/plain")) ("Hello world!")

/-- Top-level handler of the simple variant: every non-GET request (on
any path) gets 405; otherwise routing is by path. -/
def handler (ready : Bool) (req : Request) (resp : ResponseWriter) : ResponseWriter :=
  if req.method ≠ "GET" then httpError resp (statusText 405) 405
  else if req.path = "/" then handleRoot resp
  else if req.path = "/healthz" then handleHealth ready resp
  else notFound resp

end Simple

/-! JSON values, mirroring what `encoding/json` produces for the
extended variant's response body. -/

/-- JSON values needed by the diagnostic route: strings, arrays and
objects (an object is an ordered list of key/value fields). -/
inductive Js where
  | str (s : String)
  | arr (xs : List Js)
  | obj (fields : List (String × Js))

/-- Insert into a key-sorted association list. -/
def insertByKey (p : String × List String) :
    List (String × List String) → List (String × List String)
  | [] => [p]
  | q :: r => if p.1 ≤ q.1 then p :: q :: r else q :: insertByKey p r

/-- Sort an association list by key; `encoding/json` emits Go map keys
in sorted order. -/
def sortByKey (m : List (String × List String)) : List (String × List String) :=
  m.foldr insertByKey []

/-- Encode a list of strings as a JSON array. -/
def encodeStrings (xs : List String) : Js := Js.arr (xs.map Js.str)

/-- Encode a `map[string][]string` (keys sorted, as `encoding/json`
does for maps). -/
def encodeValuesMap (m : List (String × List String)) : Js :=
  Js.obj ((sortByKey m).map (fun p => (p.1, encodeStrings p.2)))

/-- Hexadecimal digit character. -/
def hexDigit (n : Nat) : Char :=
  if n < 10 then Char.ofNat (48 + n) else Char.ofNat (87 + n)

/-- JSON string escaping as `encoding/json` performs it (HTML-unsafe
characters escaped as well, since the encoder defaults to HTML
escaping). -/
def escapeChar (c : Char) : String :=
  if c == '"' then "\\\""
  else if c == '\\' then "\\\\"
  else if c == '\n' then "\\n"
  else if c == '\r' then "\\r"
  else if c == '\t' then "\\t"
  else if c == '<' then "\\u003c"
  else if c == '>' then "\\u003e"
  else if c == '&' then "\\u0026"
  else if c.toNat < 32 then
    "\\u00" ++ String.mk [hexDigit (c.toNat / 16), hexDigit (c.toNat % 16)]
  else String.mk [c]

/-- Quote a JSON string. -/
def quoteJs (s : String) : String :=
  "\"" ++ String.join (s.data.map escapeChar) ++ "\""

mutual

/-- Render a JSON value with a two-space indent, as the handler's
`json.Encoder` (after `SetIndent("", "  ")`) does; `ind` is the current
indentation prefix. -/
def renderJs : Js → String → String
  | Js.str s, _ => quoteJs s
  | Js.arr [], _ => "[]"
  | Js.arr (x :: xs), ind =>
    "[\n" ++ renderItems (x :: xs) (ind ++ "  ") ++ "\n" ++ ind ++ "]"
  | Js.obj [], _ => "\x7b\x7d"
  | Js.obj (f :: fs), ind =>
    "\x7b\n" ++ renderFields (f :: fs) (ind ++ "  ") ++ "\n" ++ ind ++ "\x7d"

/-- Render array elements, one per line. -/
def renderItems : List Js → String → String
  | [], _ => ""
  | [x], ind => ind ++ renderJs x ind
  | x :: y :: r, ind => ind ++ renderJs x ind ++ ",\n" ++ renderItems (y :: r) ind

/-- Render object fields, one per line. -/
def renderFields : List (String × Js) → String → String
  | [], _ => ""
  | [(k, v)], ind => ind ++ quoteJs k ++ ": " ++ renderJs v ind
  | (k, v) :: y :: r, ind =>
    ind ++ quoteJs k ++ ": " ++ renderJs v ind ++ ",\n" ++ renderFields (y :: r) ind

end

/-- Field lookup in a JSON object (`none` on non-objects and missing
keys); this is what decoding the document and projecting a field
yields. -/
def jGet (j : Js) (k : String) : Option Js :=
  match j with
  | Js.obj fs => (fs.find? (fun p => p.1 == k)).map (fun p => p.2)
  | _ => none

/-- Two-level field lookup. -/
def jGet2 (j : Js) (k1 k2 : String) : Option Js :=
  match jGet j k1 with
  | some v => jGet v k2
  | none => none

/-- Top-level keys of a JSON object. -/
def topKeys (j : Js) : List String :=
  match j with
  | Js.obj fs => fs.map (fun p => p.1)
  | _ => []

namespace Extended

/-- Trace of the extended variant's `waitToBeReady`: it sleeps only when
`readyAfter > 0`, then stores `true` into the readiness flag. -/
def waitToBeReady (readyAfter : Int) : List Action :=
  if readyAfter > 0 then [Action.sleep readyAfter, Action.store true]
  else [Action.store true]

/-- Shared `http.Error`-based 405 response. -/
def methodNotAllowed (resp : ResponseWriter) : ResponseWriter :=
  httpError resp (statusText 405) 405

/-- Health endpoint of the extended variant: non-GET methods get 405;
otherwise identical to the simple variant (including the too-late
`Content-Type` set). -/
def handleHealth (ready : Bool) (req : Request) (resp : ResponseWriter) : ResponseWriter :=
  if req.method ≠ "GET" then methodNotAllowed resp
  else
    let resp1 := if ready then writeHeader resp 200 else writeHeader resp 503
    let v := if ready then "OK" else "NOT_READY"
    let resp2 := headerSet resp1 ("Content-Type") ("text/plain")
    write resp2 v

/-- The `runtimeBody` struct. -/
structure runtimeBody where
  Branch : String
  Revision : String
  Platform : String

/-- The `requestBody` struct. -/
structure requestBody where
  Proto : String
  Host : String
  Method : String
  RequestURI : String
  Headers : List (String × List String)
  Form : List (String × List String)
  PostForm : List (String × List String)

/-- The `responseBody` struct. -/
structure responseBody where
  Runtime : runtimeBody
  Request : requestBody

/-- `responseBodyFor`: runtime identity from the build-time globals and
`runtime.GOOS + "-" + runtime.GOARCH`, request snapshot copied from the
incoming request. -/
def responseBodyFor (branch revision goos goarch : String) (req : Request) : responseBody :=
  ⟨⟨branch, revision, goos ++ "-" ++ goarch⟩,
   ⟨req.proto, req.host, req.method, req.requestURI, req.header, req.form, req.postForm⟩⟩

/-- JSON encoding of `runtimeBody` (struct fields in declaration order,
tags `branch`, `revision`, `platform`). -/
def encodeRuntimeBody (b : runtimeBody) : Js :=
  Js.obj [("branch", Js.str b.Branch), ("revision", Js.str b.Revision),
    ("platform", Js.str b.Platform)]

/-- JSON encoding of `requestBody`: the four plain string fields, then
the three map fields, each tagged `omitempty` and hence omitted when the
map is nil or empty. -/
def encodeRequestBody (b : requestBody) : Js :=
  Js.obj
    ([("proto", Js.str b.Proto), ("host", Js.str b.Host), ("method", Js.str b.Method),
      ("requestURI", Js.str b.RequestURI)]
      ++ (if b.Headers.isEmpty then [] else [("headers", encodeValuesMap b.Headers)])
      ++ (if b.Form.isEmpty then [] else [("form", encodeValuesMap b.Form)])
      ++ (if b.PostForm.isEmpty then [] else [("postForm", encodeValuesMap b.PostForm)]))

/-- JSON encoding of `responseBody`: exactly the two top-level fields
`runtime` and `request`. -/
def encodeResponseBody (b : responseBody) : Js :=
  Js.obj [("runtime", encodeRuntimeBody b.Runtime), ("request", encodeRequestBody b.Request)]

/-- Status-code override of `handleEveryThingElse`: models the Go
statement `if statusCode, err := strconv.Atoi(plainStatusCode); err ==
nil && statusCode >= 100 && statusCode < 1000 { resp.WriteHeader(statusCode) }`. -/
def overrideStatus (resp : ResponseWriter) (plainStatusCode : String) : ResponseWriter :=
  match atoi plainStatusCode with
  | some statusCode =>
    if 100 ≤ statusCode ∧ statusCode < 1000 then writeHeader resp statusCode.toNat
    else resp
  | none => resp

/-- Catch-all diagnostic route of the extended variant: sets the JSON
content type, optionally overrides the status code from the `statusCode`
query parameter, then encodes `responseBodyFor req` with a two-space
indent (`Encoder.Encode` appends a trailing newline). -/
def handleEveryThingElse (branch revision goos goarch : String) (req : Request)
    (resp : ResponseWriter) : ResponseWriter :=
  let resp1 := headerSet resp ("Content-Type") ("application/json")
  let resp2 := overrideStatus resp1 (queryGet req.query ("statusCode"))
  write resp2
    (renderJs (encodeResponseBody (responseBodyFor branch revision goos goarch req)) ("") ++ "\n")

/-- Top-level handler of the extended variant: `/healthz` goes to the
health endpoint, everything else to the diagnostic route. -/
def handler (branch revision goos goarch : String) (ready : Bool) (req : Request)
    (resp : ResponseWriter) : ResponseWriter :=
  if req.path = "/healthz" then handleHealth ready req resp
  else handleEveryThingElse branch revision goos goarch req resp

end Extended

/-- Request delivered by the net/http server: `Form` and `PostForm`
start out nil because `ParseForm` has not been invoked (and no handler in
the program ever invokes it). -/
def serverRequest (method path : String) (query : List (String × String))
    (proto host requestURI : String) (header : List (String × List String)) : Request :=
  ⟨method, path, query, proto, host, requestURI, header, [], []⟩

/-- A request to the health route with an arbitrary method and otherwise
arbitrary data. -/
def healthReq (m : String) (q : List (String × String)) (pr ho u : String)
    (hd fo pf : List (String × List String)) : Request :=
  ⟨m, "/healthz", q, pr, ho, u, hd, fo, pf⟩

/-- Concrete GET request to the health route. -/
def reqHealthGet : Request :=
  healthReq ("GET") [] ("HTTP/1.1") ("example.com") ("/healthz") [] [] []

/-- Concrete POST request to the health route. -/
def reqHealthPost : Request :=
  healthReq ("POST") [] ("HTTP/1.1") ("example.com") ("/healthz") [] [] []

/-- Concrete diagnostic-route request with a status-code override. -/
def reqDiag : Request :=
  ⟨"GET", "/foo", [("statusCode", "204")], "HTTP/1.1", "example.com",
    "/foo?statusCode=204", [], [], []⟩

/-! Helper lemmas. -/

/-- The flag invariant maintained by every reachable state: at most one
write has happened, the flag is `true` exactly when the write has
happened, and no write has happened while still waiting. -/
def FlagInv (s : PState) : Prop :=
  s.writes ≤ 1 ∧ (s.ready = true ↔ s.writes = 1) ∧ (s.phase = Phase.waiting → s.writes = 0)

lemma flagInv_init : FlagInv initState :=
  ⟨by simp, by simp, fun _ => rfl⟩

lemma flagInv_step {cfg : Config} {s t : PState} (hs : FlagInv s) (h : Step cfg s t) :
    FlagInv t := by
  cases h with
  | signal h2 =>
    exact ⟨hs.1, hs.2.1, fun hph => by simp [onSignal] at hph⟩
  | lifecycle hl =>
    cases hl with
    | becomeReady f w tm =>
      have hw : w = 0 := hs.2.2 rfl
      subst hw
      exact ⟨by simp, by simp, fun hph => by simp at hph⟩
    | runForEver f w tm hz =>
      exact ⟨hs.1, hs.2.1, fun hph => by simp at hph⟩
    | runTimed f w tm hnz =>
      exact ⟨hs.1, hs.2.1, fun hph => by simp at hph⟩
    | selfExit f w tm =>
      exact ⟨hs.1, hs.2.1, fun hph => by simp at hph⟩

lemma flagInv_reaches {cfg : Config} {s : PState} (h : Reaches cfg s) : FlagInv s := by
  induction h with
  | refl => exact flagInv_init
  | tail hab hstep ih => exact flagInv_step ih hstep

lemma step_ready_mono {cfg : Config} {s t : PState} (h : Step cfg s t) :
    s.ready = true → t.ready = true := by
  cases h with
  | signal h2 => exact fun hr => hr
  | lifecycle hl =>
    cases hl with
    | becomeReady f w tm => exact fun _ => rfl
    | runForEver f w tm hz => exact fun hr => hr
    | runTimed f w tm hnz => exact fun hr => hr
    | selfExit f w tm => exact fun hr => hr

lemma step_write_shape {cfg : Config} {s t : PState} (h : Step cfg s t) :
    t.writes = s.writes ∨ (t.writes = s.writes + 1 ∧ t.ready = true) := by
  cases h with
  | signal h2 => exact Or.inl rfl
  | lifecycle hl =>
    cases hl with
    | becomeReady f w tm => exact Or.inr ⟨rfl, rfl⟩
    | runForEver f w tm hz => exact Or.inl rfl
    | runTimed f w tm hnz => exact Or.inl rfl
    | selfExit f w tm => exact Or.inl rfl

/-- Signal-free executions visit exactly the straight-line states of
`main`. -/
lemma reachesNoSig_cases {cfg : Config} {s : PState} (h : ReachesNoSig cfg s) :
    s = initState ∨
    s = ⟨Phase.running, true, 1, sleepFor cfg.readyAfter⟩ ∨
    (cfg.exitAfter = 0 ∧ s = ⟨Phase.blockedForEver, true, 1, sleepFor cfg.readyAfter⟩) ∨
    (cfg.exitAfter ≠ 0 ∧
      s = ⟨Phase.done, true, 1, sleepFor cfg.readyAfter + sleepFor cfg.exitAfter⟩) ∨
    (cfg.exitAfter ≠ 0 ∧
      s = ⟨Phase.exited cfg.exitCode, true, 1,
        sleepFor cfg.readyAfter + sleepFor cfg.exitAfter⟩) := by
  induction h with
  | refl => exact Or.inl rfl
  | tail hab hstep ih =>
    rcases ih with h1 | h1 | ⟨h0, h1⟩ | ⟨h0, h1⟩ | ⟨h0, h1⟩
    · subst h1
      cases hstep
      exact Or.inr (Or.inl (by simp))
    · subst h1
      cases hstep with
      | runForEver f w tm hz => exact Or.inr (Or.inr (Or.inl ⟨hz, rfl⟩))
      | runTimed f w tm hnz => exact Or.inr (Or.inr (Or.inr (Or.inl ⟨hnz, rfl⟩)))
    · subst h1
      cases hstep
    · subst h1
      cases hstep
      exact Or.inr (Or.inr (Or.inr (Or.inr ⟨h0, rfl⟩)))
    · subst h1
      cases hstep

lemma body_writeHeader (r : ResponseWriter) (c : Nat) : (writeHeader r c).body = r.body := by
  unfold writeHeader
  rcases hs : r.sent with _ | p <;> simp [hs]

lemma write_body (r : ResponseWriter) (s : String) : (write r s).body = r.body ++ s := by
  simp only [write]
  rw [body_writeHeader]

lemma empty_append_str (s : String) : "" ++ s = s := by
  cases s
  rfl

lemma body_overrideStatus (r : ResponseWriter) (s : String) :
    (Extended.overrideStatus r s).body = r.body := by
  unfold Extended.overrideStatus
  rcases h : atoi s with _ | n
  · rfl
  · show (if 100 ≤ n ∧ n < 1000 then writeHeader r n.toNat else r).body = r.body
    by_cases h2 : 100 ≤ n ∧ n < 1000
    · rw [if_pos h2]
      exact body_writeHeader r n.toNat
    · rw [if_neg h2]

lemma overrideStatus_some_in (r : ResponseWriter) (s : String) (n : Int)
    (h : atoi s = some n) (h2 : 100 ≤ n ∧ n < 1000) :
    Extended.overrideStatus r s = writeHeader r n.toNat := by
  unfold Extended.overrideStatus
  rw [h]
  show (if 100 ≤ n ∧ n < 1000 then writeHeader r n.toNat else r) = writeHeader r n.toNat
  rw [if_pos h2]

lemma overrideStatus_some_out (r : ResponseWriter) (s : String) (n : Int)
    (h : atoi s = some n) (h2 : ¬(100 ≤ n ∧ n < 1000)) :
    Extended.overrideStatus r s = r := by
  unfold Extended.overrideStatus
  rw [h]
  show (if 100 ≤ n ∧ n < 1000 then writeHeader r n.toNat else r) = r
  rw [if_neg h2]

lemma overrideStatus_none (r : ResponseWriter) (s : String)
    (h : atoi s = none) : Extended.overrideStatus r s = r := by
  unfold Extended.overrideStatus
  rw [h]

/-- The diagnostic route's body is the pretty-printed JSON encoding of
`responseBodyFor req`, plus the `Encode` newline. -/
lemma handler_body_eq (branch revision goos goarch : String) (ready : Bool) (req : Request)
    (hp : req.path ≠ "/healthz") :
    (Extended.handler branch revision goos goarch ready req rw0).body =
      renderJs (Extended.encodeResponseBody
        (Extended.responseBodyFor branch revision goos goarch req)) ("") ++ "\n" := by
  simp only [Extended.handler]
  rw [if_neg hp]
  simp only [Extended.handleEveryThingElse]
  rw [write_body, body_overrideStatus]
  exact empty_append_str _

/-! Claim theorems. -/

/-- Claim C1: for every GET request to the health route, in either
variant, the response has status 200 and body exactly `OK` when the
readiness flag read by the handler is true, and status 503 and body
exactly `NOT_READY` when it is false; the status and body are a function
of the flag, so no other combination can occur. -/
theorem health_get_status_body (ready : Bool) (q : List (String × String))
    (pr ho u : String) (hd fo pf : List (String × List String))
    (branch revision goos goarch : String) :
    (sentStatus (Simple.handler ready (healthReq ("GET") q pr ho u hd fo pf) rw0) =
        (if ready then 200 else 503) ∧
      (Simple.handler ready (healthReq ("GET") q pr ho u hd fo pf) rw0).body =
        (if ready then "OK" else "NOT_READY")) ∧
    (sentStatus (Extended.handler branch revision goos goarch ready
          (healthReq ("GET") q pr ho u hd fo pf) rw0) =
        (if ready then 200 else 503) ∧
      (Extended.handler branch revision goos goarch ready
          (healthReq ("GET") q pr ho u hd fo pf) rw0).body =
        (if ready then "OK" else "NOT_READY")) := by
  cases ready <;> exact ⟨⟨rfl, rfl⟩, ⟨rfl, rfl⟩⟩

/-- Claim C2: the readiness flag starts `false`, every reachable state
has seen at most one write, the flag is `true` exactly when that single
write (the `ready.Store(true)` in `waitToBeReady`) has happened, every
step either leaves the write count unchanged or performs that first
write storing `true` (so the flag never reverts), and in signal-free
executions every state past `waitToBeReady` has exactly one write. -/
theorem readiness_flag_single_monotone_write :
    initState.ready = false ∧
    (∀ cfg : Config, ∀ s : PState, Reaches cfg s →
      s.writes ≤ 1 ∧ (s.ready = true ↔ s.writes = 1) ∧
      (∀ t : PState, Step cfg s t →
        (s.ready = true → t.ready = true) ∧
        (t.writes = s.writes ∨ (s.writes = 0 ∧ t.writes = 1 ∧ t.ready = true)))) ∧
    (∀ cfg : Config, ∀ s : PState, ReachesNoSig cfg s →
      s.phase ≠ Phase.waiting → s.writes = 1) := by
  refine ⟨rfl, fun cfg s hs => ?_, fun cfg s hs hph => ?_⟩
  · have hi := flagInv_reaches hs
    refine ⟨hi.1, hi.2.1, fun t ht => ⟨step_ready_mono ht, ?_⟩⟩
    have hit := flagInv_step hi ht
    rcases step_write_shape ht with h | ⟨h1, h2⟩
    · exact Or.inl h
    · right
      have hb : t.writes ≤ 1 := hit.1
      exact ⟨by omega, by omega, h2⟩
  · rcases reachesNoSig_cases hs with h | h | ⟨h0, h⟩ | ⟨h0, h⟩ | ⟨h0, h⟩
    · subst h
      exact absurd rfl hph
    · subst h
      rfl
    · subst h
      rfl
    · subst h
      rfl
    · subst h
      rfl

/-- Claim C2 witness: instantiated at a concrete configuration and the
initial state. -/
theorem readiness_flag_single_monotone_write_witness :
    initState.writes ≤ 1 ∧ (initState.ready = true ↔ initState.writes = 1) := by
  have h := readiness_flag_single_monotone_write.2.1 ⟨15, 0, 1⟩ initState
    Relation.ReflTransGen.refl
  exact ⟨h.1, h.2.1⟩

/-- Claim C3: with `exitAfter = 0` a signal-free execution never reaches
an exited state and the `blockForEver` state has no outgoing lifecycle
step (the process never self-exits); with `exitAfter ≠ 0` the lifecycle
reaches, after both configured suspensions, the state exited with the
configured `exitCode`, and that is the only exit a signal-free execution
can reach. -/
theorem exit_after_semantics (cfg : Config) :
    (cfg.exitAfter = 0 →
      (∀ s : PState, ReachesNoSig cfg s → ∀ c : Int, s.phase ≠ Phase.exited c) ∧
      (∀ f : Bool, ∀ w : Nat, ∀ tm : Int, ∀ t : PState,
        ¬ LStep cfg ⟨Phase.blockedForEver, f, w, tm⟩ t)) ∧
    (cfg.exitAfter ≠ 0 →
      ReachesNoSig cfg ⟨Phase.exited cfg.exitCode, true, 1,
        sleepFor cfg.readyAfter + sleepFor cfg.exitAfter⟩ ∧
      (∀ s : PState, ReachesNoSig cfg s → ∀ c : Int,
        s.phase = Phase.exited c → c = cfg.exitCode)) := by
  constructor
  · intro hz
    constructor
    · intro s hs c
      rcases reachesNoSig_cases hs with h | h | ⟨h0, h⟩ | ⟨h0, h⟩ | ⟨h0, h⟩
      · subst h
        simp [initState]
      · subst h
        simp
      · subst h
        simp
      · exact absurd hz h0
      · exact absurd hz h0
    · intro f w tm t hstep
      nomatch hstep
  · intro hnz
    constructor
    · have s1 : LStep cfg initState ⟨Phase.running, true, 1, sleepFor cfg.readyAfter⟩ := by
        have h0 : LStep cfg ⟨Phase.waiting, false, 0, 0⟩
            ⟨Phase.running, true, 0 + 1, 0 + sleepFor cfg.readyAfter⟩ :=
          LStep.becomeReady false 0 0
        simpa using h0
      have s2 : LStep cfg ⟨Phase.running, true, 1, sleepFor cfg.readyAfter⟩
          ⟨Phase.done, true, 1, sleepFor cfg.readyAfter + sleepFor cfg.exitAfter⟩ :=
        LStep.runTimed true 1 (sleepFor cfg.readyAfter) hnz
      have s3 : LStep cfg ⟨Phase.done, true, 1, sleepFor cfg.readyAfter + sleepFor cfg.exitAfter⟩
          ⟨Phase.exited cfg.exitCode, true, 1,
            sleepFor cfg.readyAfter + sleepFor cfg.exitAfter⟩ :=
        LStep.selfExit true 1 (sleepFor cfg.readyAfter + sleepFor cfg.exitAfter)
      exact Relation.ReflTransGen.tail
        (Relation.ReflTransGen.tail (Relation.ReflTransGen.single s1) s2) s3
    · intro s hs c hc
      rcases reachesNoSig_cases hs with h | h | ⟨h0, h⟩ | ⟨h0, h⟩ | ⟨h0, h⟩
      · subst h
        simp [initState] at hc
      · subst h
        simp at hc
      · exact absurd h0 hnz
      · subst h
        simp at hc
      · subst h
        simp only at hc
        exact (Phase.exited.inj hc).symm

/-- Claim C3 witness: instantiated at concrete configurations for both
branches. -/
theorem exit_after_semantics_witness :
    (∀ c : Int, initState.phase ≠ Phase.exited c) ∧
    ReachesNoSig ⟨2, 3, 7⟩ ⟨Phase.exited 7, true, 1, sleepFor 2 + sleepFor 3⟩ := by
  constructor
  · exact fun c =>
      ((exit_after_semantics ⟨2, 0, 7⟩).1 rfl).1 initState Relation.ReflTransGen.refl c
  · exact ((exit_after_semantics ⟨2, 3, 7⟩).2 (by decide)).1

/-- Claim C4: on the diagnostic route of the extended variant, if the
`statusCode` query parameter parses as an integer between 100 and 999
the response status is exactly that integer; if the parameter is absent,
non-numeric, or out of that range, the override is ignored and the
status is the default 200. -/
theorem diagnostic_status_override (branch revision goos goarch : String) (ready : Bool)
    (req : Request) (hp : req.path ≠ "/healthz") :
    (∀ n : Int, atoi (queryGet req.query ("statusCode")) = some n →
      ((100 ≤ n ∧ n ≤ 999) →
        sentStatus (Extended.handler branch revision goos goarch ready req rw0) = n.toNat) ∧
      (¬(100 ≤ n ∧ n ≤ 999) →
        sentStatus (Extended.handler branch revision goos goarch ready req rw0) = 200)) ∧
    (atoi (queryGet req.query ("statusCode")) = none →
      sentStatus (Extended.handler branch revision goos goarch ready req rw0) = 200) := by
  constructor
  · intro n hn
    constructor
    · intro h2
      have h3 : 100 ≤ n ∧ n < 1000 := ⟨h2.1, by omega⟩
      simp only [Extended.handler]
      rw [if_neg hp]
      simp only [Extended.handleEveryThingElse]
      rw [overrideStatus_some_in _ _ _ hn h3]
      rfl
    · intro h2
      have h3 : ¬(100 ≤ n ∧ n < 1000) := by omega
      simp only [Extended.handler]
      rw [if_neg hp]
      simp only [Extended.handleEveryThingElse]
      rw [overrideStatus_some_out _ _ _ hn h3]
      rfl
  · intro hn
    simp only [Extended.handler]
    rw [if_neg hp]
    simp only [Extended.handleEveryThingElse]
    rw [overrideStatus_none _ _ hn]
    rfl

/-- Claim C4 witness: `?statusCode=204` yields response status 204. -/
theorem diagnostic_status_override_witness :
    sentStatus (Extended.handler ("development") ("latest") ("linux") ("amd64")
      true reqDiag rw0) = 204 := by
  have h := (diagnostic_status_override ("development") ("latest") ("linux") ("amd64")
    true reqDiag (by decide)).1 204 (by decide)
  exact h.1 (by decide)

/-- Claim C5: the diagnostic response body is the rendered JSON document
with exactly the two top-level fields `runtime` and `request`, and
decoding it reproduces the build-time branch and revision and the
request's method and host. -/
theorem diagnostic_body_round_trip (branch revision goos goarch : String) (ready : Bool)
    (req : Request) (hp : req.path ≠ "/healthz") :
    ((Extended.handler branch revision goos goarch ready req rw0).body =
      renderJs (Extended.encodeResponseBody
        (Extended.responseBodyFor branch revision goos goarch req)) ("") ++ "\n") ∧
    topKeys (Extended.encodeResponseBody
      (Extended.responseBodyFor branch revision goos goarch req)) = ["runtime", "request"] ∧
    jGet2 (Extended.encodeResponseBody
      (Extended.responseBodyFor branch revision goos goarch req)) ("runtime") ("branch") =
      some (Js.str branch) ∧
    jGet2 (Extended.encodeResponseBody
      (Extended.responseBodyFor branch revision goos goarch req)) ("runtime") ("revision") =
      some (Js.str revision) ∧
    jGet2 (Extended.encodeResponseBody
      (Extended.responseBodyFor branch revision goos goarch req)) ("request") ("method") =
      some (Js.str req.method) ∧
    jGet2 (Extended.encodeResponseBody
      (Extended.responseBodyFor branch revision goos goarch req)) ("request") ("host") =
      some (Js.str req.host) :=
  ⟨handler_body_eq branch revision goos goarch ready req hp, rfl, rfl, rfl, rfl, rfl⟩

/-- Claim C5 witness: concrete request on the diagnostic route. -/
theorem diagnostic_body_round_trip_witness :
    jGet2 (Extended.encodeResponseBody (Extended.responseBodyFor ("development") ("latest")
      ("linux") ("amd64") reqDiag)) ("request") ("method") = some (Js.str ("GET")) := by
  exact (diagnostic_body_round_trip ("development") ("latest") ("linux") ("amd64")
    true reqDiag (by decide)).2.2.2.2.1

/-- Claim C6 counterexample: the claim says the two `waitToBeReady`
variants differ only at `readyAfter = 0`, but durations are signed and
at `readyAfter = -1` (a representable flag value) the simple variant
still performs the non-positive suspension while the extended variant
skips it, so they differ there as well. -/
theorem wait_variants_counterexample :
    (-1 : Int) ≠ 0 ∧ Simple.waitToBeReady (-1) ≠ Extended.waitToBeReady (-1) := by
  decide

/-- Claim C6 (amended): the two variants' readiness-wait procedures
agree for every `readyAfter` strictly greater than zero (both suspend
for that duration then set the flag); for every `readyAfter ≤ 0` —
including `0` and the representable negative durations — the simple
variant still performs the (zero-length) suspension unconditionally
while the extended variant skips the suspension entirely before setting
the flag, so in particular they differ at `readyAfter = 0`. -/
theorem wait_variants_agreement :
    (∀ d : Int, 0 < d → Simple.waitToBeReady d = Extended.waitToBeReady d) ∧
    (∀ d : Int, d ≤ 0 →
      Simple.waitToBeReady d = [Action.sleep d, Action.store true] ∧
      Extended.waitToBeReady d = [Action.store true]) ∧
    Simple.waitToBeReady 0 ≠ Extended.waitToBeReady 0 := by
  refine ⟨fun d hd => ?_, fun d hd => ⟨rfl, ?_⟩, by decide⟩
  · simp [Simple.waitToBeReady, Extended.waitToBeReady, hd]
  · rw [Extended.waitToBeReady, if_neg (by omega)]

/-- Claim C6 witness: the amended statement instantiated at concrete
durations. -/
theorem wait_variants_agreement_witness :
    Simple.waitToBeReady 5 = Extended.waitToBeReady 5 ∧
    Extended.waitToBeReady (-2) = [Action.store true] :=
  ⟨wait_variants_agreement.1 5 (by decide),
    (wait_variants_agreement.2.1 (-2) (by decide)).2⟩

/-- Claim C7: a request to the health route whose method is not GET gets
status 405 in either variant, whatever the readiness flag. -/
theorem health_non_get_405 (ready : Bool) (m : String) (hm : m ≠ "GET")
    (q : List (String × String)) (pr ho u : String)
    (hd fo pf : List (String × List String)) (branch revision goos goarch : String) :
    sentStatus (Simple.handler ready (healthReq m q pr ho u hd fo pf) rw0) = 405 ∧
    sentStatus (Extended.handler branch revision goos goarch ready
      (healthReq m q pr ho u hd fo pf) rw0) = 405 := by
  constructor
  · simp only [Simple.handler, healthReq]
    rw [if_pos hm]
    rfl
  · simp only [Extended.handler, healthReq]
    simp only [if_true]
    simp only [Extended.handleHealth]
    rw [if_pos hm]
    rfl

/-- Claim C7 witness: POST to the health route gets 405 in both
variants with the flag in either state. -/
theorem health_non_get_405_witness :
    sentStatus (Simple.handler true reqHealthPost rw0) = 405 ∧
    sentStatus (Extended.handler ("development") ("latest") ("linux") ("amd64")
      false reqHealthPost rw0) = 405 :=
  ⟨(health_non_get_405 true ("POST") (by decide) [] ("HTTP/1.1") ("example.com")
      ("/healthz") [] [] [] ("development") ("latest") ("linux") ("amd64")).1,
   (health_non_get_405 false ("POST") (by decide) [] ("HTTP/1.1") ("example.com")
      ("/healthz") [] [] [] ("development") ("latest") ("linux") ("amd64")).2⟩

/-- Claim C8: in both variants `handleHealth` calls
`resp.Header().Set("Content-Type", "text/plain")` only after
`resp.WriteHeader`, and net/http snapshots the header map at
`WriteHeader`, so the committed response carries no handler-set
`Content-Type` header at all even though the handler's live header map
ends up containing `text/plain`: the explicit plain-text content type
the code (and claim) intend is never transmitted. -/
theorem health_content_type_set_too_late :
    (lookupKV (sentHeaders (Simple.handler true reqHealthGet rw0)) ("Content-Type") = none ∧
      lookupKV (Simple.handler true reqHealthGet rw0).liveHeader ("Content-Type") =
        some ("text/plain") ∧
      sentStatus (Simple.handler true reqHealthGet rw0) = 200 ∧
      (Simple.handler true reqHealthGet rw0).body = "OK") ∧
    (lookupKV (sentHeaders (Extended.handler ("development") ("latest") ("linux") ("amd64")
        true reqHealthGet rw0)) ("Content-Type") = none ∧
      lookupKV (Extended.handler ("development") ("latest") ("linux") ("amd64")
        true reqHealthGet rw0).liveHeader ("Content-Type") = some ("text/plain")) ∧
    (lookupKV (sentHeaders (Simple.handler false reqHealthGet rw0)) ("Content-Type") = none ∧
      lookupKV (sentHeaders (Extended.handler ("development") ("latest") ("linux") ("amd64")
        false reqHealthGet rw0)) ("Content-Type") = none) := by
  decide

/-- Claim C9: from every reachable, not-yet-exited state, delivering a
termination signal is a valid step and leads to exit code 0, whatever
exit code the configuration requested for the self-exit path. -/
theorem signal_exit_code_zero (cfg : Config) (s : PState) (hr : Reaches cfg s)
    (h : isExited s.phase = false) :
    Step cfg s (onSignal s) ∧ (onSignal s).phase = Phase.exited 0 :=
  ⟨Step.signal s h, rfl⟩

/-- Claim C9 witness: a configuration with self-exit code 7, signalled
at the initial state, still exits with 0. -/
theorem signal_exit_code_zero_witness :
    Step ⟨5, 4, 7⟩ initState (onSignal initState) ∧
    (onSignal initState).phase = Phase.exited 0 :=
  signal_exit_code_zero ⟨5, 4, 7⟩ initState Relation.ReflTransGen.refl rfl

/-- Claim C10: for every request delivered by the server to the
diagnostic route (Form and PostForm nil because no handler ever parses
forms), the JSON body contains neither a `form` nor a `postForm` field —
also when the request carries query parameters or headers. -/
theorem diagnostic_body_omits_forms (branch revision goos goarch : String) (ready : Bool)
    (m p : String) (q : List (String × String)) (pr ho u : String)
    (hd : List (String × List String)) (hp : p ≠ "/healthz") :
    ((Extended.handler branch revision goos goarch ready
        (serverRequest m p q pr ho u hd) rw0).body =
      renderJs (Extended.encodeResponseBody (Extended.responseBodyFor branch revision
        goos goarch (serverRequest m p q pr ho u hd))) ("") ++ "\n") ∧
    jGet2 (Extended.encodeResponseBody (Extended.responseBodyFor branch revision goos goarch
      (serverRequest m p q pr ho u hd))) ("request") ("form") = none ∧
    jGet2 (Extended.encodeResponseBody (Extended.responseBodyFor branch revision goos goarch
      (serverRequest m p q pr ho u hd))) ("request") ("postForm") = none := by
  rcases hd with _ | ⟨a, t⟩ <;>
    exact ⟨handler_body_eq branch revision goos goarch ready _ hp, rfl, rfl⟩

/-- Claim C10 witness: concrete request with query parameters and a
header still yields no `form` field. -/
theorem diagnostic_body_omits_forms_witness :
    jGet2 (Extended.encodeResponseBody (Extended.responseBodyFor ("development") ("latest")
      ("linux") ("amd64") (serverRequest ("POST") ("/submit") ([("a", "b")]) ("HTTP/1.1")
      ("example.com") ("/submit?a=b") ([("Accept", ["text/html"])])))) ("request") ("form") =
      none := by
  exact (diagnostic_body_omits_forms ("development") ("latest") ("linux") ("amd64") true
    ("POST") ("/submit") ([("a", "b")]) ("HTTP/1.1") ("example.com") ("/submit?a=b")
    ([("Accept", ["text/html"])]) (by decide)).2.1

end KuborDemo
